import Mathlib

/-!
Verification development for the graph-visualization core: the percentile
driven visual encoders (`d3-helpers.ts`), the node/edge initialization of the
`ForceGraph` component, and the viewport (zoom) controller.

Numbers are embedded as exact rationals (`ℚ`) where the source computes with
rational arithmetic only, and as reals (`ℝ`) where the source uses
transcendental operations (`Math.pow` with fractional exponent, `Math.log`).
-/

namespace Spec2Proof

/-- JavaScript's `Math.round`: round half toward positive infinity,
`Math.round x = ⌊x + 1/2⌋`. -/
def jsRound (q : ℚ) : ℤ := Int.floor (q + 1/2)

/-- Threshold set for volatility (from `utils/percentile`, used by
`getNodeColorWithThresholds`): the {p40, p60, p80, max} percentile
boundaries. -/
structure VolatilityThresholds where
  p40 : ℚ
  p60 : ℚ
  p80 : ℚ
  max : ℚ

/-- Monotone threshold set: p40 ≤ p60 ≤ p80 ≤ max. -/
def VolatilityThresholds.Mono (t : VolatilityThresholds) : Prop :=
  t.p40 ≤ t.p60 ∧ t.p60 ≤ t.p80 ∧ t.p80 ≤ t.max

/-- The RGB triple computed by the 60th–80th percentile branch of
`getNodeColorWithThresholds`: linear interpolation between light blue
#93c5fd = (147, 197, 253) and standard blue #3b82f6 = (59, 130, 246) at
position (volatility − p60)/(p80 − p60), each channel rounded. -/
def midRGB (volatility : ℚ) (t : VolatilityThresholds) : ℤ × ℤ × ℤ :=
  let range := t.p80 - t.p60
  let position := (volatility - t.p60) / range
  (jsRound (147 + (59 - 147) * position),
   jsRound (197 + (130 - 197) * position),
   jsRound (253 + (246 - 253) * position))

/-- The RGB value of the color returned by `getNodeColorWithThresholds`:
#ffffff, #dbeafe, the interpolated mid color, or #1e3a8a depending on tier. -/
def getNodeColorRGB (volatility : ℚ) (t : VolatilityThresholds) : ℤ × ℤ × ℤ :=
  if volatility < t.p40 then (255, 255, 255)
  else if volatility < t.p60 then (219, 234, 254)
  else if volatility < t.p80 then midRGB volatility t
  else (30, 58, 138)

/-- Renders an RGB triple to the CSS string the source returns: the three
fixed tier colors print in hex form, everything else as `rgb(r, g, b)`. -/
def renderRGB (c : ℤ × ℤ × ℤ) : String :=
  if c = (255, 255, 255) then "#ffffff"
  else if c = (219, 234, 254) then "#dbeafe"
  else if c = (30, 58, 138) then "#1e3a8a"
  else s!"rgb({c.1}, {c.2.1}, {c.2.2})"

/-- `getNodeColorWithThresholds` from `d3-helpers.ts`: maps volatility to a
CSS color string by percentile tier. -/
def getNodeColorWithThresholds (volatility : ℚ) (t : VolatilityThresholds) :
    String :=
  if volatility < t.p40 then "#ffffff"
  else if volatility < t.p60 then "#dbeafe"
  else if volatility < t.p80 then
    let c := midRGB volatility t
    s!"rgb({c.1}, {c.2.1}, {c.2.2})"
  else "#1e3a8a"

/-- The spec's reading of the mid tier: linear interpolation between the
"low" tier color #dbeafe = (219, 234, 254) and the "high" tier color
#1e3a8a = (30, 58, 138), at the same position. Stated from the spec's words
for comparison with `midRGB`, which is translated from the source. -/
def specMidRGB (volatility : ℚ) (t : VolatilityThresholds) : ℤ × ℤ × ℤ :=
  let range := t.p80 - t.p60
  let position := (volatility - t.p60) / range
  (jsRound (219 + (30 - 219) * position),
   jsRound (234 + (58 - 234) * position),
   jsRound (254 + (138 - 254) * position))

/-- `getConnectionWidth` from `d3-helpers.ts`:
linear mapping `0.3 + correlation * 2.2`. -/
def getConnectionWidth (correlation : ℚ) : ℚ :=
  0.3 + correlation * 2.2

/-- `getEnhancedConnectionWidth` from `d3-helpers.ts`: base width from
correlation times a pressure multiplier, clamped to [0.1, 4]. -/
def getEnhancedConnectionWidth (correlation pressure : ℚ) : ℚ :=
  let baseWidth := 0.2 + correlation * 1.3
  let pressureMultiplier := 0.5 + 1.5 * pressure ^ 2
  let combinedWidth := baseWidth * pressureMultiplier
  max 0.1 (min 4 combinedWidth)

/-- The tier index of the branch `getNodeColorWithThresholds` takes:
0 = below p40 (white), 1 = [p40, p60) (very light blue), 2 = [p60, p80)
(interpolated), 3 = at or above p80 (dark blue). -/
def colorTier (volatility : ℚ) (t : VolatilityThresholds) : ℕ :=
  if volatility < t.p40 then 0
  else if volatility < t.p60 then 1
  else if volatility < t.p80 then 2
  else 3

/-- Sum of the three channels of an RGB triple. -/
def rgbSum (c : ℤ × ℤ × ℤ) : ℤ := c.1 + c.2.1 + c.2.2

/-- Darkness rank of the color returned for a given volatility: 765 minus
the sum of the RGB channels (white = 0, dark blue #1e3a8a = 539). -/
def colorDarkness (volatility : ℚ) (t : VolatilityThresholds) : ℤ :=
  765 - rgbSum (getNodeColorRGB volatility t)

/-- Threshold set for pressure (from `utils/percentile`, used by
`getEnhancedConnectionOpacityByPressure`). Pressure values feed real-valued
power scaling, so this side of the development lives in `ℝ`. -/
structure PressureThresholds where
  p40 : ℝ
  p60 : ℝ
  p80 : ℝ
  max : ℝ

/-- Monotone pressure threshold set: p40 ≤ p60 ≤ p80 ≤ max. -/
def PressureThresholds.Mono (t : PressureThresholds) : Prop :=
  t.p40 ≤ t.p60 ∧ t.p60 ≤ t.p80 ∧ t.p80 ≤ t.max

/-- `OpacityConfig` from `d3-helpers.ts`. -/
structure OpacityConfig where
  minOpacity : ℝ
  maxOpacity : ℝ
  exponent : ℝ

/-- `DEFAULT_OPACITY_CONFIG` from `d3-helpers.ts`. -/
noncomputable def DEFAULT_OPACITY_CONFIG : OpacityConfig :=
  { minOpacity := 0.15, maxOpacity := 3.0, exponent := 2.5 }

/-- `getEnhancedConnectionOpacity` from `d3-helpers.ts`: clamp pressure to
[0, 1], apply the power curve, clamp the result to
[minOpacity, maxOpacity]. `^` is real exponentiation (`Math.pow`). -/
noncomputable def getEnhancedConnectionOpacity (pressure : ℝ)
    (config : OpacityConfig) : ℝ :=
  let clampedPressure := max 0 (min 1 pressure)
  let scaledValue := clampedPressure ^ config.exponent
  let opacity :=
    config.minOpacity + (config.maxOpacity - config.minOpacity) * scaledValue
  max config.minOpacity (min config.maxOpacity opacity)

/-- The normalization stage of `getEnhancedConnectionOpacityByPressure`:
maps raw pressure into [0, 1] by percentile tier, with the source's
zero-range guards. -/
noncomputable def normalizePressure (pressure : ℝ) (t : PressureThresholds) :
    ℝ :=
  if pressure < t.p40 then
    pressure / t.p40 * 0.25
  else if pressure < t.p60 then
    let range := t.p60 - t.p40
    if range = 0 then 0.375
    else
      let position := (pressure - t.p40) / range
      0.25 + 0.25 * position
  else if pressure < t.p80 then
    let range := t.p80 - t.p60
    if range = 0 then 0.625
    else
      let position := (pressure - t.p60) / range
      0.5 + 0.25 * position
  else
    let range := t.max - t.p80
    if range = 0 then 1.0
    else
      let position := min ((pressure - t.p80) / range) 1
      0.75 + 0.25 * position

/-- `getEnhancedConnectionOpacityByPressure` from `d3-helpers.ts`: normalize
by percentile tier, then apply the power-curve opacity stage. -/
noncomputable def getEnhancedConnectionOpacityByPressure (pressure : ℝ)
    (t : PressureThresholds) (config : OpacityConfig) : ℝ :=
  getEnhancedConnectionOpacity (normalizePressure pressure t) config

/-- The pressure-side tier index, mirroring the branch structure of
`normalizePressure`: 0 = below p40, 1 = [p40, p60), 2 = [p60, p80),
3 = at or above p80. -/
noncomputable def pressureTier (pressure : ℝ) (t : PressureThresholds) : ℕ :=
  if pressure < t.p40 then 0
  else if pressure < t.p60 then 1
  else if pressure < t.p80 then 2
  else 3

/-- `getNodeRadius` from `d3-helpers.ts`: radius 5–11px, normalized count
either logarithmic (`ln(count+1)/ln(max+1)`, when the flag is set and the
count is positive) or linear (`count/max`), capped at 1. -/
noncomputable def getNodeRadius (connectionCount : ℝ) (maxConnections : ℝ)
    (useLogarithmic : Bool) : ℝ :=
  let minRadius : ℝ := 5
  let maxRadius : ℝ := 11
  let radiusRange := maxRadius - minRadius
  let normalizedCount : ℝ :=
    if useLogarithmic = true ∧ 0 < connectionCount then
      let logCount := Real.log (connectionCount + 1)
      let logMax := Real.log (maxConnections + 1)
      min (logCount / logMax) 1
    else
      min (connectionCount / maxConnections) 1
  minRadius + normalizedCount * radiusRange

/-- The declared default of `getNodeRadius`'s `maxConnections` parameter. -/
def getNodeRadius_default_maxConnections : ℝ := 20

/-- The declared default of `getNodeRadius`'s `useLogarithmic` parameter. -/
def getNodeRadius_default_useLogarithmic : Bool := true

/-- A graph node as consumed by `ForceGraph`: identifier, volatility, and
the simulation-owned position, `none` until the simulation assigns it. -/
structure GraphNode where
  id : String
  volatility : ℚ
  x : Option ℚ
  y : Option ℚ

/-- A connection as consumed by `ForceGraph`: endpoint identifiers plus
correlation and pressure attributes. -/
structure Connection where
  source : String
  target : String
  correlation : ℚ
  pressure : ℚ

/-- One step of the node deduplication in `ForceGraph`'s lazy state
initializer: insert the node at the end unless its id was already seen
(the `Map` insert guarded by `has`, preserving insertion order). -/
def dedupStep (acc : List GraphNode) (node : GraphNode) : List GraphNode :=
  if acc.any (fun n => n.id == node.id) then acc else acc ++ [node]

/-- The node deduplication in `ForceGraph`'s lazy state initializer: walk
the input nodes, keeping only the first occurrence of each id. -/
def dedupNodes (nodes : List GraphNode) : List GraphNode :=
  nodes.foldl dedupStep []

/-- A rendered connection line: endpoint coordinates and stroke width. -/
structure RenderedLine where
  x1 : ℚ
  y1 : ℚ
  x2 : ℚ
  y2 : ℚ
  strokeWidth : ℚ

/-- One connection's rendering in `ForceGraph`: resolve the source and
target ids against the node list; skip (return `none`) when either node is
missing or lacks a position; otherwise emit the line with stroke width
`getConnectionWidth correlation`. -/
def renderConnection (nodes : List GraphNode) (conn : Connection) :
    Option RenderedLine :=
  let source := nodes.find? (fun n => n.id == conn.source)
  let target := nodes.find? (fun n => n.id == conn.target)
  match source, target with
  | some s, some t =>
    match s.x, s.y, t.x, t.y with
    | some sx, some sy, some tx, some ty =>
      some ⟨sx, sy, tx, ty, getConnectionWidth conn.correlation⟩
    | _, _, _, _ => none
  | _, _ => none

/-- The connection layer of `ForceGraph`: each connection renders to at most
one line; skipped connections contribute nothing. -/
def renderConnections (nodes : List GraphNode) (conns : List Connection) :
    List RenderedLine :=
  conns.filterMap (renderConnection nodes)

/-- Modelled from the spec: the force-simulation hook (`useForceSimulation`)
is not under src/; per §4.3 and §3, edge-to-node binding at initialization
silently drops edges whose source or target id resolves to no node. -/
def bindEdges (nodes : List GraphNode) (conns : List Connection) :
    List Connection :=
  conns.filter
    (fun c =>
      nodes.any (fun n => n.id == c.source) &&
        nodes.any (fun n => n.id == c.target))

/-- The viewport transform of §3: scale plus translate. -/
structure ViewportTransform where
  scale : ℚ
  translateX : ℚ
  translateY : ℚ

/-- The default viewport transform: scale 1, translate (0, 0). -/
def defaultTransform : ViewportTransform :=
  { scale := 1, translateX := 0, translateY := 0 }

/-- Modelled from the spec: the zoom hook (`useZoom`) is not under src/;
§4.4 and the `ZoomControls` documentation fix zoomIn as scale × 1.3 clamped
to the configured positive range (spec example [0.1, 10]). -/
def zoomIn (v : ViewportTransform) : ViewportTransform :=
  { v with scale := max 0.1 (min 10 (v.scale * 1.3)) }

/-- Modelled from the spec: zoomOut multiplies scale by the reciprocal
factor 1/1.3, with the same clamp. -/
def zoomOut (v : ViewportTransform) : ViewportTransform :=
  { v with scale := max 0.1 (min 10 (v.scale * (1 / 1.3))) }

/-- Modelled from the spec: reset restores the default transform
(scale 1, translate (0, 0)). -/
def resetZoom (_ : ViewportTransform) : ViewportTransform := defaultTransform

/-- C1 counterexample: the claimed endpoints `widthOf(0) = 0.5` and
`widthOf(1) = 5` are both false: `getConnectionWidth 0 = 0.3` and
`getConnectionWidth 1 = 2.5`. -/
theorem getConnectionWidth_claimed_endpoints_false :
    ¬(getConnectionWidth 0 = 0.5 ∧ getConnectionWidth 1 = 5) := by
  unfold getConnectionWidth; norm_num

/-- C1 (amended): the connection-width mapping has the documented endpoints
of the source, `getConnectionWidth 0 = 0.3` and `getConnectionWidth 1 = 2.5`. -/
theorem getConnectionWidth_endpoints :
    getConnectionWidth 0 = 0.3 ∧ getConnectionWidth 1 = 2.5 := by
  unfold getConnectionWidth; norm_num

/-- C9: for all inputs, including values outside [0, 1],
`getEnhancedConnectionWidth` returns a value in [0.1, 4]. -/
theorem getEnhancedConnectionWidth_range (correlation pressure : ℚ) :
    0.1 ≤ getEnhancedConnectionWidth correlation pressure ∧
      getEnhancedConnectionWidth correlation pressure ≤ 4 := by
  unfold getEnhancedConnectionWidth
  constructor
  · exact le_max_left _ _
  · exact max_le (by norm_num) (min_le_left _ _)

/-- C2 counterexample: at value 1/2 with thresholds (1/4, 1/2, 3/4, 1) the
value lies in [p60, p80), and the returned color is the interpolation
between #93c5fd and #3b82f6 (here "rgb(147, 197, 253)"), not the
interpolation between the "low" tier color #dbeafe and the "high" tier
color #1e3a8a that the claim describes (here (219, 234, 254), i.e.
"#dbeafe"). -/
theorem getNodeColor_mid_interpolation_counterexample :
    (VolatilityThresholds.Mono ⟨1/4, 1/2, 3/4, 1⟩) ∧
    getNodeColorWithThresholds (1/2) ⟨1/4, 1/2, 3/4, 1⟩ = "rgb(147, 197, 253)" ∧
    specMidRGB (1/2) ⟨1/4, 1/2, 3/4, 1⟩ = (219, 234, 254) ∧
    midRGB (1/2) ⟨1/4, 1/2, 3/4, 1⟩ ≠ specMidRGB (1/2) ⟨1/4, 1/2, 3/4, 1⟩ ∧
    getNodeColorWithThresholds (1/2) ⟨1/4, 1/2, 3/4, 1⟩ ≠
      renderRGB (specMidRGB (1/2) ⟨1/4, 1/2, 3/4, 1⟩) := by
  have hmid : midRGB (1/2) ⟨1/4, 1/2, 3/4, 1⟩ = (147, 197, 253) := by
    unfold midRGB jsRound; norm_num
  have hspec : specMidRGB (1/2) ⟨1/4, 1/2, 3/4, 1⟩ = (219, 234, 254) := by
    unfold specMidRGB jsRound; norm_num
  have hcol : getNodeColorWithThresholds (1/2) ⟨1/4, 1/2, 3/4, 1⟩ =
      "rgb(147, 197, 253)" := by
    unfold getNodeColorWithThresholds midRGB jsRound; norm_num; rfl
  refine ⟨by unfold VolatilityThresholds.Mono; norm_num, hcol, hspec, ?_, ?_⟩
  · rw [hmid, hspec]; decide
  · rw [hcol, hspec]; decide

/-- C3 counterexample: with thresholds (1, 2, 3, 4) and config
(minOpacity 1, maxOpacity 0, exponent 1), pressure 4 normalizes to 1 but the
function returns 1 (the final clamp takes over), while the claimed formula
`minOpacity + (maxOpacity − minOpacity) · normalized^exponent` gives 0. -/
theorem opacityByPressure_formula_counterexample :
    (PressureThresholds.Mono ⟨1, 2, 3, 4⟩) ∧
    normalizePressure 4 ⟨1, 2, 3, 4⟩ = 1 ∧
    getEnhancedConnectionOpacityByPressure 4 ⟨1, 2, 3, 4⟩ ⟨1, 0, 1⟩ = 1 ∧
    getEnhancedConnectionOpacityByPressure 4 ⟨1, 2, 3, 4⟩ ⟨1, 0, 1⟩ ≠
      (1 : ℝ) + ((0 : ℝ) - 1) * normalizePressure 4 ⟨1, 2, 3, 4⟩ ^ (1 : ℝ) := by
  have hn : normalizePressure 4 ⟨1, 2, 3, 4⟩ = 1 := by
    unfold normalizePressure; norm_num
  have hv : getEnhancedConnectionOpacityByPressure 4 ⟨1, 2, 3, 4⟩ ⟨1, 0, 1⟩
      = 1 := by
    unfold getEnhancedConnectionOpacityByPressure getEnhancedConnectionOpacity
    rw [hn]
    norm_num [Real.rpow_one]
  refine ⟨by unfold PressureThresholds.Mono; norm_num, hn, hv, ?_⟩
  rw [hv, hn, Real.one_rpow]
  norm_num

/-- C4 counterexample: with thresholds (−1, 0, 1, 2) (monotone), config
(minOpacity 0, maxOpacity 1, exponent 1) and pressures −2 ≤ −3/2,
the opacity decreases (from 1/2 to 3/8), so the claimed monotonicity fails
as stated; it needs non-negative pressures. -/
theorem opacity_monotonicity_counterexample :
    (PressureThresholds.Mono ⟨-1, 0, 1, 2⟩) ∧
    ((-2 : ℝ) ≤ -3/2) ∧
    ((0 : ℝ) <
      (OpacityConfig.mk 0 1 1).exponent) ∧
    ((OpacityConfig.mk 0 1 1).minOpacity ≤ (OpacityConfig.mk 0 1 1).maxOpacity) ∧
    getEnhancedConnectionOpacityByPressure (-3/2) ⟨-1, 0, 1, 2⟩
        (OpacityConfig.mk 0 1 1) <
      getEnhancedConnectionOpacityByPressure (-2) ⟨-1, 0, 1, 2⟩
        (OpacityConfig.mk 0 1 1) := by
  have h1 : normalizePressure (-2) ⟨-1, 0, 1, 2⟩ = 1/2 := by
    unfold normalizePressure; norm_num
  have h2 : normalizePressure (-3/2) ⟨-1, 0, 1, 2⟩ = 3/8 := by
    unfold normalizePressure; norm_num
  refine ⟨by unfold PressureThresholds.Mono; norm_num, by norm_num,
    by norm_num, by norm_num, ?_⟩
  unfold getEnhancedConnectionOpacityByPressure getEnhancedConnectionOpacity
  rw [h1, h2]
  norm_num [Real.rpow_one]

/-- C8: starting from the default viewport transform, three zoomIn commands
followed by one reset yield scale exactly 1 and translate exactly (0, 0);
the three zoomIns themselves take the scale to 1.3³ = 2.197 inside the
clamp range. -/
theorem zoom_three_in_then_reset :
    (resetZoom (zoomIn (zoomIn (zoomIn defaultTransform)))).scale = 1 ∧
    (resetZoom (zoomIn (zoomIn (zoomIn defaultTransform)))).translateX = 0 ∧
    (resetZoom (zoomIn (zoomIn (zoomIn defaultTransform)))).translateY = 0 ∧
    (zoomIn (zoomIn (zoomIn defaultTransform))).scale = 2.197 := by
  refine ⟨rfl, rfl, rfl, ?_⟩
  unfold zoomIn defaultTransform
  norm_num

/-- C10: the default opacity configuration is (0.15, 3.0, 2.5), and at
pressure 1 `getEnhancedConnectionOpacity` returns 3, strictly greater
than 1 — the default output range is not contained in [0, 1]. -/
theorem default_opacity_exceeds_one :
    DEFAULT_OPACITY_CONFIG.minOpacity = 0.15 ∧
    DEFAULT_OPACITY_CONFIG.maxOpacity = 3 ∧
    DEFAULT_OPACITY_CONFIG.exponent = 2.5 ∧
    getEnhancedConnectionOpacity 1 DEFAULT_OPACITY_CONFIG = 3 ∧
    (1 : ℝ) < getEnhancedConnectionOpacity 1 DEFAULT_OPACITY_CONFIG := by
  have hv : getEnhancedConnectionOpacity 1 DEFAULT_OPACITY_CONFIG = 3 := by
    unfold getEnhancedConnectionOpacity DEFAULT_OPACITY_CONFIG
    norm_num [Real.one_rpow]
  refine ⟨by norm_num [DEFAULT_OPACITY_CONFIG], by norm_num [DEFAULT_OPACITY_CONFIG],
    by norm_num [DEFAULT_OPACITY_CONFIG], hv, by rw [hv]; norm_num⟩

/-- Helper: the logarithmic branch of `getNodeRadius` for positive counts. -/
lemma getNodeRadius_log_branch (c m : ℝ) (hc : 0 < c) :
    getNodeRadius c m true =
      5 + min (Real.log (c + 1) / Real.log (m + 1)) 1 * 6 := by
  unfold getNodeRadius
  rw [if_pos ⟨rfl, hc⟩]
  norm_num

/-- Helper: at count 0 even logarithmic mode falls back to the linear
branch. -/
lemma getNodeRadius_zero_branch (m : ℝ) :
    getNodeRadius 0 m true = 5 + min (0 / m) 1 * 6 := by
  unfold getNodeRadius
  rw [if_neg (by norm_num)]
  norm_num

/-- C5: for every maxConnections > 0, logarithmic-mode radius is 5 (the
minimum) at count 0 and 11 (the maximum) at count = maxConnections; for all
non-negative counts the logarithmic normalized count is
`ln(count+1)/ln(maxConnections+1)` clamped to [0, 1]; and the declared
defaults are maxConnections = 20 with logarithmic mode on. -/
theorem getNodeRadius_spec (m : ℝ) (hm : 0 < m) :
    getNodeRadius 0 m true = 5 ∧
    getNodeRadius m m true = 11 ∧
    (∀ c : ℝ, 0 ≤ c →
      getNodeRadius c m true =
        5 + max 0 (min (Real.log (c + 1) / Real.log (m + 1)) 1) * 6) ∧
    getNodeRadius_default_useLogarithmic = true ∧
    getNodeRadius_default_maxConnections = 20 := by
  have hm1 : (1 : ℝ) < m + 1 := by linarith
  have hlm : 0 < Real.log (m + 1) := Real.log_pos hm1
  refine ⟨?_, ?_, ?_, rfl, rfl⟩
  · rw [getNodeRadius_zero_branch]; norm_num
  · rw [getNodeRadius_log_branch m m hm, div_self hlm.ne']; norm_num
  · intro c hc
    rcases eq_or_lt_of_le hc with h0 | h0
    · rw [← h0, getNodeRadius_zero_branch]
      norm_num
    · rw [getNodeRadius_log_branch c m h0]
      have hlc : 0 < Real.log (c + 1) := Real.log_pos (by linarith)
      have hr : 0 ≤ Real.log (c + 1) / Real.log (m + 1) :=
        le_of_lt (div_pos hlc hlm)
      rw [max_eq_right (le_min hr (by norm_num))]

/-- C5 witness: the endpoint facts evaluated at maxConnections = 20. -/
theorem getNodeRadius_spec_witness :
    (0 : ℝ) < 20 ∧ getNodeRadius 0 20 true = 5 ∧
      getNodeRadius 20 20 true = 11 := by
  have h := getNodeRadius_spec 20 (by norm_num)
  exact ⟨by norm_num, h.1, h.2.1⟩

/-- C2 (amended): for monotone thresholds, `getNodeColorWithThresholds`
classifies by tier — below p40 white #ffffff, [p40, p60) very light blue
#dbeafe, [p60, p80) the color linearly interpolated in RGB space between
light blue #93c5fd = (147, 197, 253) and standard blue #3b82f6 =
(59, 130, 246) (not the adjacent tier colors) at position
(value − p60)/(p80 − p60) with channels rounded, and at or above p80 dark
blue #1e3a8a; when p80 = p60, every value ≥ p60 takes the dark-blue branch,
so the interpolation's division is never evaluated. -/
theorem getNodeColorWithThresholds_tiers (v : ℚ) (t : VolatilityThresholds)
    (ht : t.Mono) :
    (v < t.p40 → getNodeColorWithThresholds v t = "#ffffff") ∧
    (t.p40 ≤ v → v < t.p60 → getNodeColorWithThresholds v t = "#dbeafe") ∧
    (t.p60 ≤ v → v < t.p80 →
      ∃ r g b : ℤ,
        r = jsRound (147 + (59 - 147) * ((v - t.p60) / (t.p80 - t.p60))) ∧
        g = jsRound (197 + (130 - 197) * ((v - t.p60) / (t.p80 - t.p60))) ∧
        b = jsRound (253 + (246 - 253) * ((v - t.p60) / (t.p80 - t.p60))) ∧
        midRGB v t = (r, g, b) ∧
        getNodeColorWithThresholds v t = s!"rgb({r}, {g}, {b})") ∧
    (t.p80 ≤ v → getNodeColorWithThresholds v t = "#1e3a8a") ∧
    (t.p80 = t.p60 → t.p60 ≤ v → getNodeColorWithThresholds v t = "#1e3a8a") := by
  obtain ⟨h46, h68, h8m⟩ := ht
  have hdark : t.p80 ≤ v → getNodeColorWithThresholds v t = "#1e3a8a" := by
    intro h
    unfold getNodeColorWithThresholds
    rw [if_neg (not_lt.2 (le_trans h46 (le_trans h68 h))),
      if_neg (not_lt.2 (le_trans h68 h)), if_neg (not_lt.2 h)]
  refine ⟨?_, ?_, ?_, hdark, ?_⟩
  · intro h
    unfold getNodeColorWithThresholds
    rw [if_pos h]
  · intro ha hb
    unfold getNodeColorWithThresholds
    rw [if_neg (not_lt.2 ha), if_pos hb]
  · intro ha hb
    refine ⟨_, _, _, rfl, rfl, rfl, ?_, ?_⟩
    · unfold midRGB
      rfl
    · unfold getNodeColorWithThresholds
      rw [if_neg (not_lt.2 (le_trans h46 ha)), if_neg (not_lt.2 ha), if_pos hb]
      rfl
  · intro heq hv
    exact hdark (heq ▸ hv)

/-- C2 witness: the tier classification evaluated at thresholds
(1/4, 1/2, 3/4, 1). -/
theorem getNodeColorWithThresholds_tiers_witness :
    (VolatilityThresholds.Mono ⟨1/4, 1/2, 3/4, 1⟩) ∧
    getNodeColorWithThresholds (1/10) ⟨1/4, 1/2, 3/4, 1⟩ = "#ffffff" ∧
    getNodeColorWithThresholds (3/10) ⟨1/4, 1/2, 3/4, 1⟩ = "#dbeafe" ∧
    getNodeColorWithThresholds (9/10) ⟨1/4, 1/2, 3/4, 1⟩ = "#1e3a8a" := by
  have hm : (VolatilityThresholds.Mono ⟨1/4, 1/2, 3/4, 1⟩) := by
    unfold VolatilityThresholds.Mono; norm_num
  exact ⟨hm,
    (getNodeColorWithThresholds_tiers (1/10) _ hm).1 (by norm_num),
    (getNodeColorWithThresholds_tiers (3/10) _ hm).2.1 (by norm_num) (by norm_num),
    (getNodeColorWithThresholds_tiers (9/10) _ hm).2.2.2.1 (by norm_num)⟩

/-- Helper: the below-p40 branch of `normalizePressure`. -/
lemma normalizePressure_tier0 (p : ℝ) (t : PressureThresholds)
    (h : p < t.p40) : normalizePressure p t = p / t.p40 * 0.25 := by
  simp only [normalizePressure]
  rw [if_pos h]

/-- Helper: the [p40, p60) branch of `normalizePressure`; the zero-range
guard is unreachable because the branch makes the range positive. -/
lemma normalizePressure_tier1 (p : ℝ) (t : PressureThresholds)
    (h0 : t.p40 ≤ p) (h1 : p < t.p60) :
    normalizePressure p t = 0.25 + 0.25 * ((p - t.p40) / (t.p60 - t.p40)) := by
  have hr : t.p60 - t.p40 ≠ 0 := by
    have := lt_of_le_of_lt h0 h1
    intro hc; apply absurd this; linarith
  simp only [normalizePressure]
  rw [if_neg (not_lt.2 h0), if_pos h1, if_neg hr]

/-- Helper: the [p60, p80) branch of `normalizePressure`. -/
lemma normalizePressure_tier2 (p : ℝ) (t : PressureThresholds)
    (ht : t.Mono) (h0 : t.p60 ≤ p) (h1 : p < t.p80) :
    normalizePressure p t = 0.5 + 0.25 * ((p - t.p60) / (t.p80 - t.p60)) := by
  have hr : t.p80 - t.p60 ≠ 0 := by
    have := lt_of_le_of_lt h0 h1
    intro hc; apply absurd this; linarith
  simp only [normalizePressure]
  rw [if_neg (not_lt.2 (le_trans ht.1 h0)), if_neg (not_lt.2 h0), if_pos h1,
    if_neg hr]

/-- Helper: the top branch of `normalizePressure`, including its reachable
zero-range guard. -/
lemma normalizePressure_tier3 (p : ℝ) (t : PressureThresholds)
    (ht : t.Mono) (h : t.p80 ≤ p) :
    normalizePressure p t =
      if t.max - t.p80 = 0 then 1
      else 0.75 + 0.25 * min ((p - t.p80) / (t.max - t.p80)) 1 := by
  simp only [normalizePressure]
  rw [if_neg (not_lt.2 (le_trans ht.1 (le_trans ht.2.1 h))),
    if_neg (not_lt.2 (le_trans ht.2.1 h)), if_neg (not_lt.2 h)]
  norm_num

/-- Helper: `pressureTier` never exceeds 3. -/
lemma pressureTier_le_three (p : ℝ) (t : PressureThresholds) :
    pressureTier p t ≤ 3 := by
  unfold pressureTier
  split_ifs <;> norm_num

/-- Helper: for monotone thresholds and non-negative pressure, the
normalized pressure lies in the quarter-band of its tier. -/
lemma normalizePressure_tier_bounds (p : ℝ) (t : PressureThresholds)
    (ht : t.Mono) (hp : 0 ≤ p) :
    (pressureTier p t : ℝ) * 0.25 ≤ normalizePressure p t ∧
      normalizePressure p t ≤ ((pressureTier p t : ℝ) + 1) * 0.25 := by
  by_cases h1 : p < t.p40
  · have h40 : 0 < t.p40 := lt_of_le_of_lt hp h1
    have hq0 : 0 ≤ p / t.p40 := div_nonneg hp h40.le
    have hq1 : p / t.p40 ≤ 1 := (div_le_one h40).2 h1.le
    rw [normalizePressure_tier0 p t h1]
    unfold pressureTier
    rw [if_pos h1]
    push_cast
    constructor <;> nlinarith
  · by_cases h2 : p < t.p60
    · have h0 : t.p40 ≤ p := not_lt.1 h1
      have hrange : 0 < t.p60 - t.p40 := by
        have := lt_of_le_of_lt h0 h2; linarith
      have hq0 : 0 ≤ (p - t.p40) / (t.p60 - t.p40) :=
        div_nonneg (by linarith) hrange.le
      have hq1 : (p - t.p40) / (t.p60 - t.p40) ≤ 1 :=
        (div_le_one hrange).2 (by linarith)
      rw [normalizePressure_tier1 p t h0 h2]
      unfold pressureTier
      rw [if_neg h1, if_pos h2]
      push_cast
      constructor <;> nlinarith
    · by_cases h3 : p < t.p80
      · have h0 : t.p60 ≤ p := not_lt.1 h2
        have hrange : 0 < t.p80 - t.p60 := by
          have := lt_of_le_of_lt h0 h3; linarith
        have hq0 : 0 ≤ (p - t.p60) / (t.p80 - t.p60) :=
          div_nonneg (by linarith) hrange.le
        have hq1 : (p - t.p60) / (t.p80 - t.p60) ≤ 1 :=
          (div_le_one hrange).2 (by linarith)
        rw [normalizePressure_tier2 p t ht h0 h3]
        unfold pressureTier
        rw [if_neg h1, if_neg h2, if_pos h3]
        push_cast
        constructor <;> nlinarith
      · have h0 : t.p80 ≤ p := not_lt.1 h3
        rw [normalizePressure_tier3 p t ht h0]
        unfold pressureTier
        rw [if_neg h1, if_neg h2, if_neg h3]
        push_cast
        by_cases hd : t.max - t.p80 = 0
        · rw [if_pos hd]; norm_num
        · rw [if_neg hd]
          have hrange : 0 < t.max - t.p80 := by
            rcases lt_or_eq_of_le (by linarith [ht.2.2] :
              (0 : ℝ) ≤ t.max - t.p80) with h | h
            · exact h
            · exact absurd h.symm hd
          have hq0 : 0 ≤ min ((p - t.p80) / (t.max - t.p80)) 1 :=
            le_min (div_nonneg (by linarith) hrange.le) zero_le_one
          have hq1 : min ((p - t.p80) / (t.max - t.p80)) 1 ≤ 1 :=
            min_le_right _ _
          constructor <;> nlinarith

/-- Helper: for monotone thresholds and non-negative pressure, the
normalized pressure lies in [0, 1]. -/
lemma normalizePressure_mem (p : ℝ) (t : PressureThresholds)
    (ht : t.Mono) (hp : 0 ≤ p) :
    0 ≤ normalizePressure p t ∧ normalizePressure p t ≤ 1 := by
  obtain ⟨hl, hu⟩ := normalizePressure_tier_bounds p t ht hp
  have h3 : (pressureTier p t : ℝ) ≤ 3 := by
    exact_mod_cast pressureTier_le_three p t
  have h0 : (0 : ℝ) ≤ (pressureTier p t : ℝ) := by positivity
  constructor <;> nlinarith

/-- Helper: the pressure tier is monotone in the pressure. -/
lemma pressureTier_mono (p1 p2 : ℝ) (t : PressureThresholds) (h : p1 ≤ p2) :
    pressureTier p1 t ≤ pressureTier p2 t := by
  unfold pressureTier
  split_ifs <;> first
    | (exfalso; linarith)
    | norm_num

/-- Helper: tier value in the first branch. -/
lemma pressureTier_def0 (p : ℝ) (t : PressureThresholds) (h : p < t.p40) :
    pressureTier p t = 0 := by
  unfold pressureTier; rw [if_pos h]

/-- Helper: tier value in the second branch. -/
lemma pressureTier_def1 (p : ℝ) (t : PressureThresholds)
    (h0 : ¬p < t.p40) (h1 : p < t.p60) : pressureTier p t = 1 := by
  unfold pressureTier; rw [if_neg h0, if_pos h1]

/-- Helper: for monotone thresholds, `normalizePressure` is monotone on
non-negative pressures. -/
lemma normalizePressure_mono (p1 p2 : ℝ) (t : PressureThresholds)
    (ht : t.Mono) (hp1 : 0 ≤ p1) (h12 : p1 ≤ p2) :
    normalizePressure p1 t ≤ normalizePressure p2 t := by
  have hp2 : 0 ≤ p2 := le_trans hp1 h12
  rcases lt_or_eq_of_le (pressureTier_mono p1 p2 t h12) with hlt | heq
  · have hu := (normalizePressure_tier_bounds p1 t ht hp1).2
    have hl := (normalizePressure_tier_bounds p2 t ht hp2).1
    have hstep : (pressureTier p1 t : ℝ) + 1 ≤ (pressureTier p2 t : ℝ) := by
      exact_mod_cast hlt
    nlinarith
  · by_cases h1 : p1 < t.p40
    · have h1' : p2 < t.p40 := by
        by_contra hc
        rw [pressureTier_def0 p1 t h1] at heq
        unfold pressureTier at heq
        rw [if_neg hc] at heq
        split_ifs at heq
      have h40 : 0 < t.p40 := lt_of_le_of_lt hp1 h1
      rw [normalizePressure_tier0 p1 t h1, normalizePressure_tier0 p2 t h1']
      have hdiv : p1 / t.p40 ≤ p2 / t.p40 := by gcongr
      nlinarith
    · by_cases h2 : p1 < t.p60
      · have hno : ¬p2 < t.p40 := fun hc => h1 (lt_of_le_of_lt h12 hc)
        have h2' : p2 < t.p60 := by
          by_contra hc
          rw [pressureTier_def1 p1 t h1 h2] at heq
          unfold pressureTier at heq
          rw [if_neg hno, if_neg hc] at heq
          split_ifs at heq <;> omega
        have h0 : t.p40 ≤ p1 := not_lt.1 h1
        have hrange : 0 < t.p60 - t.p40 := by
          have := lt_of_le_of_lt h0 h2; linarith
        rw [normalizePressure_tier1 p1 t h0 h2,
          normalizePressure_tier1 p2 t (not_lt.1 hno) h2']
        have hdiv : (p1 - t.p40) / (t.p60 - t.p40) ≤
            (p2 - t.p40) / (t.p60 - t.p40) := by gcongr
        linarith
      · by_cases h3 : p1 < t.p80
        · have hno : ¬p2 < t.p40 := fun hc => h1 (lt_of_le_of_lt h12 hc)
          have hno' : ¬p2 < t.p60 := fun hc => h2 (lt_of_le_of_lt h12 hc)
          have h3' : p2 < t.p80 := by
            by_contra hc
            unfold pressureTier at heq
            rw [if_neg h1, if_neg h2, if_pos h3, if_neg hno, if_neg hno',
              if_neg hc] at heq
            omega
          have h0 : t.p60 ≤ p1 := not_lt.1 h2
          have hrange : 0 < t.p80 - t.p60 := by
            have := lt_of_le_of_lt h0 h3; linarith
          rw [normalizePressure_tier2 p1 t ht h0 h3,
            normalizePressure_tier2 p2 t ht (not_lt.1 hno') h3']
          have hdiv : (p1 - t.p60) / (t.p80 - t.p60) ≤
              (p2 - t.p60) / (t.p80 - t.p60) := by gcongr
          linarith
        · have h0 : t.p80 ≤ p1 := not_lt.1 h3
          have h0' : t.p80 ≤ p2 := le_trans h0 h12
          rw [normalizePressure_tier3 p1 t ht h0,
            normalizePressure_tier3 p2 t ht h0']
          by_cases hd : t.max - t.p80 = 0
          · rw [if_pos hd, if_pos hd]
          · rw [if_neg hd, if_neg hd]
            have hrange : 0 < t.max - t.p80 := by
              rcases lt_or_eq_of_le (by linarith [ht.2.2] :
                (0 : ℝ) ≤ t.max - t.p80) with h | h
              · exact h
              · exact absurd h.symm hd
            have hdiv : (p1 - t.p80) / (t.max - t.p80) ≤
                (p2 - t.p80) / (t.max - t.p80) := by gcongr
            have hmin := min_le_min hdiv (le_refl (1 : ℝ))
            linarith

/-- Helper: the power-curve opacity stage, on a normalized input in [0, 1]
with a non-negative exponent and ordered opacity bounds, is exactly the
power-law formula — both clamps are no-ops. -/
lemma getEnhancedConnectionOpacity_eq (n : ℝ) (c : OpacityConfig)
    (hn0 : 0 ≤ n) (hn1 : n ≤ 1) (he : 0 ≤ c.exponent)
    (hmm : c.minOpacity ≤ c.maxOpacity) :
    getEnhancedConnectionOpacity n c =
      c.minOpacity + (c.maxOpacity - c.minOpacity) * n ^ c.exponent := by
  simp only [getEnhancedConnectionOpacity]
  rw [min_eq_right hn1, max_eq_right hn0]
  have hs0 : 0 ≤ n ^ c.exponent := Real.rpow_nonneg hn0 _
  have hs1 : n ^ c.exponent ≤ 1 := Real.rpow_le_one hn0 hn1 he
  have hhi : c.minOpacity + (c.maxOpacity - c.minOpacity) * n ^ c.exponent ≤
      c.maxOpacity := by nlinarith
  have hlo : c.minOpacity ≤
      c.minOpacity + (c.maxOpacity - c.minOpacity) * n ^ c.exponent := by
    nlinarith
  rw [min_eq_right hhi, max_eq_right hlo]

/-- Helper: the power-curve opacity stage is monotone in its pressure
argument when the exponent is non-negative and minOpacity ≤ maxOpacity. -/
lemma getEnhancedConnectionOpacity_mono (x y : ℝ) (c : OpacityConfig)
    (he : 0 ≤ c.exponent) (hmm : c.minOpacity ≤ c.maxOpacity) (h : x ≤ y) :
    getEnhancedConnectionOpacity x c ≤ getEnhancedConnectionOpacity y c := by
  simp only [getEnhancedConnectionOpacity]
  have hcx0 : (0 : ℝ) ≤ max 0 (min 1 x) := le_max_left _ _
  have hcxy : max 0 (min 1 x) ≤ max 0 (min 1 y) :=
    max_le_max le_rfl (min_le_min le_rfl h)
  have hs : max 0 (min 1 x) ^ c.exponent ≤ max 0 (min 1 y) ^ c.exponent :=
    Real.rpow_le_rpow hcx0 hcxy he
  have hin : c.minOpacity + (c.maxOpacity - c.minOpacity) *
        max 0 (min 1 x) ^ c.exponent ≤
      c.minOpacity + (c.maxOpacity - c.minOpacity) *
        max 0 (min 1 y) ^ c.exponent := by
    nlinarith
  exact max_le_max le_rfl (min_le_min le_rfl hin)

/-- C3 (amended): for monotone thresholds, non-negative pressure, positive
exponent and minOpacity ≤ maxOpacity, the opacity is the composition of the
tier normalization (landing in [0, 1], with each tier mapped into its
quarter sub-range by linear interpolation and the degenerate top-range guard
returning 1) followed by exactly the power law
minOpacity + (maxOpacity − minOpacity) · normalized^exponent. -/
theorem opacityByPressure_two_stage (p : ℝ) (t : PressureThresholds)
    (c : OpacityConfig) (ht : t.Mono) (hp : 0 ≤ p) (he : 0 < c.exponent)
    (hmm : c.minOpacity ≤ c.maxOpacity) :
    getEnhancedConnectionOpacityByPressure p t c =
      getEnhancedConnectionOpacity (normalizePressure p t) c ∧
    0 ≤ normalizePressure p t ∧ normalizePressure p t ≤ 1 ∧
    (p < t.p40 → normalizePressure p t = p / t.p40 * 0.25) ∧
    (t.p40 ≤ p → p < t.p60 →
      normalizePressure p t = 0.25 + 0.25 * ((p - t.p40) / (t.p60 - t.p40))) ∧
    (t.p60 ≤ p → p < t.p80 →
      normalizePressure p t = 0.5 + 0.25 * ((p - t.p60) / (t.p80 - t.p60))) ∧
    (t.p80 ≤ p → t.max = t.p80 → normalizePressure p t = 1) ∧
    (t.p80 ≤ p → t.max ≠ t.p80 →
      normalizePressure p t =
        0.75 + 0.25 * min ((p - t.p80) / (t.max - t.p80)) 1) ∧
    getEnhancedConnectionOpacityByPressure p t c =
      c.minOpacity + (c.maxOpacity - c.minOpacity) *
        normalizePressure p t ^ c.exponent := by
  obtain ⟨hn0, hn1⟩ := normalizePressure_mem p t ht hp
  refine ⟨rfl, hn0, hn1, fun h => normalizePressure_tier0 p t h,
    fun h0 h1 => normalizePressure_tier1 p t h0 h1,
    fun h0 h1 => normalizePressure_tier2 p t ht h0 h1, ?_, ?_, ?_⟩
  · intro h hdeq
    rw [normalizePressure_tier3 p t ht h, if_pos (by rw [hdeq]; ring)]
  · intro h hdne
    rw [normalizePressure_tier3 p t ht h,
      if_neg (fun hc => hdne (by linarith))]
  · exact getEnhancedConnectionOpacity_eq _ c hn0 hn1 he.le hmm

/-- C3 witness: the two-stage formula evaluated at pressure 4, thresholds
(1, 2, 3, 4) and the default configuration. -/
theorem opacityByPressure_two_stage_witness :
    (PressureThresholds.Mono ⟨1, 2, 3, 4⟩) ∧ ((0 : ℝ) ≤ 4) ∧
    (0 < DEFAULT_OPACITY_CONFIG.exponent) ∧
    (DEFAULT_OPACITY_CONFIG.minOpacity ≤ DEFAULT_OPACITY_CONFIG.maxOpacity) ∧
    getEnhancedConnectionOpacityByPressure 4 ⟨1, 2, 3, 4⟩
        DEFAULT_OPACITY_CONFIG =
      DEFAULT_OPACITY_CONFIG.minOpacity +
        (DEFAULT_OPACITY_CONFIG.maxOpacity -
          DEFAULT_OPACITY_CONFIG.minOpacity) *
          normalizePressure 4 ⟨1, 2, 3, 4⟩ ^ DEFAULT_OPACITY_CONFIG.exponent := by
  have hm : PressureThresholds.Mono ⟨1, 2, 3, 4⟩ := by
    unfold PressureThresholds.Mono; norm_num
  have he : (0 : ℝ) < DEFAULT_OPACITY_CONFIG.exponent := by
    norm_num [DEFAULT_OPACITY_CONFIG]
  have hmm : DEFAULT_OPACITY_CONFIG.minOpacity ≤
      DEFAULT_OPACITY_CONFIG.maxOpacity := by
    norm_num [DEFAULT_OPACITY_CONFIG]
  exact ⟨hm, by norm_num, he, hmm,
    (opacityByPressure_two_stage 4 ⟨1, 2, 3, 4⟩ DEFAULT_OPACITY_CONFIG hm
      (by norm_num) he hmm).2.2.2.2.2.2.2.2⟩

/-- Helper: `jsRound` is monotone. -/
lemma jsRound_mono {a b : ℚ} (h : a ≤ b) : jsRound a ≤ jsRound b := by
  unfold jsRound
  exact Int.floor_le_floor (by linarith)

/-- Helper: `jsRound` of a value between two integers stays between them. -/
lemma jsRound_bounds (lo hi : ℤ) (x : ℚ) (hlo : (lo : ℚ) ≤ x)
    (hhi : x ≤ (hi : ℚ)) : lo ≤ jsRound x ∧ jsRound x ≤ hi := by
  unfold jsRound
  constructor
  · exact Int.le_floor.2 (by linarith)
  · exact Int.lt_add_one_iff.1 (Int.floor_lt.2 (by push_cast; linarith))

/-- Helper: channel bounds of the interpolated mid-tier color on its
branch: the position lies in [0, 1), so each channel stays between its two
interpolation endpoints. -/
lemma midRGB_bounds (v : ℚ) (t : VolatilityThresholds)
    (h0 : t.p60 ≤ v) (h1 : v < t.p80) :
    (59 ≤ (midRGB v t).1 ∧ (midRGB v t).1 ≤ 147) ∧
    (130 ≤ (midRGB v t).2.1 ∧ (midRGB v t).2.1 ≤ 197) ∧
    (246 ≤ (midRGB v t).2.2 ∧ (midRGB v t).2.2 ≤ 253) := by
  have hrange : 0 < t.p80 - t.p60 := by
    have := lt_of_le_of_lt h0 h1; linarith
  have hp0 : 0 ≤ (v - t.p60) / (t.p80 - t.p60) :=
    div_nonneg (by linarith) hrange.le
  have hp1 : (v - t.p60) / (t.p80 - t.p60) ≤ 1 :=
    (div_le_one hrange).2 (by linarith)
  simp only [midRGB]
  refine ⟨jsRound_bounds 59 147 _ (by nlinarith) (by nlinarith),
    jsRound_bounds 130 197 _ (by nlinarith) (by nlinarith),
    jsRound_bounds 246 253 _ (by nlinarith) (by nlinarith)⟩

/-- Helper: each channel of the mid-tier color is anti-monotone in the
value on the mid branch. -/
lemma midRGB_anti (v1 v2 : ℚ) (t : VolatilityThresholds)
    (h0 : t.p60 ≤ v1) (h12 : v1 ≤ v2) (h1 : v2 < t.p80) :
    (midRGB v2 t).1 ≤ (midRGB v1 t).1 ∧
    (midRGB v2 t).2.1 ≤ (midRGB v1 t).2.1 ∧
    (midRGB v2 t).2.2 ≤ (midRGB v1 t).2.2 := by
  have hrange : 0 < t.p80 - t.p60 := by
    have := lt_of_le_of_lt (le_trans h0 h12) h1; linarith
  have hposle : (v1 - t.p60) / (t.p80 - t.p60) ≤
      (v2 - t.p60) / (t.p80 - t.p60) := by gcongr
  simp only [midRGB]
  exact ⟨jsRound_mono (by nlinarith), jsRound_mono (by nlinarith),
    jsRound_mono (by nlinarith)⟩

/-- Helper: `colorTier` is monotone in the value. -/
lemma colorTier_mono (v1 v2 : ℚ) (t : VolatilityThresholds) (h : v1 ≤ v2) :
    colorTier v1 t ≤ colorTier v2 t := by
  unfold colorTier
  split_ifs <;> first
    | (exfalso; linarith)
    | norm_num

/-- Helper: the darkness rank of the returned color is monotone in the
value. -/
lemma colorDarkness_mono (v1 v2 : ℚ) (t : VolatilityThresholds)
    (h : v1 ≤ v2) : colorDarkness v1 t ≤ colorDarkness v2 t := by
  unfold colorDarkness getNodeColorRGB
  by_cases b1 : v2 < t.p40
  · rw [if_pos (lt_of_le_of_lt h b1), if_pos b1]
  · by_cases b2 : v2 < t.p60
    · by_cases a1 : v1 < t.p40
      · rw [if_pos a1, if_neg b1, if_pos b2]
        unfold rgbSum; norm_num
      · rw [if_neg a1, if_pos (lt_of_le_of_lt h b2), if_neg b1, if_pos b2]
    · by_cases b3 : v2 < t.p80
      · have hb0 : t.p60 ≤ v2 := not_lt.1 b2
        obtain ⟨⟨hr1, hr2⟩, ⟨hg1, hg2⟩, ⟨hb1, hb2⟩⟩ :=
          midRGB_bounds v2 t hb0 b3
        by_cases a1 : v1 < t.p40
        · rw [if_pos a1, if_neg b1, if_neg b2, if_pos b3]
          unfold rgbSum
          simp only
          nlinarith
        · by_cases a2 : v1 < t.p60
          · rw [if_neg a1, if_pos a2, if_neg b1, if_neg b2, if_pos b3]
            unfold rgbSum
            simp only
            nlinarith
          · have ha0 : t.p60 ≤ v1 := not_lt.1 a2
            have a3 : v1 < t.p80 := lt_of_le_of_lt h b3
            obtain ⟨hc1, hc2, hc3⟩ := midRGB_anti v1 v2 t ha0 h b3
            rw [if_neg a1, if_neg a2, if_pos a3, if_neg b1, if_neg b2,
              if_pos b3]
            unfold rgbSum
            nlinarith
      · by_cases a1 : v1 < t.p40
        · rw [if_pos a1, if_neg b1, if_neg b2, if_neg b3]
          unfold rgbSum; norm_num
        · by_cases a2 : v1 < t.p60
          · rw [if_neg a1, if_pos a2, if_neg b1, if_neg b2, if_neg b3]
            unfold rgbSum; norm_num
          · by_cases a3 : v1 < t.p80
            · have ha0 : t.p60 ≤ v1 := not_lt.1 a2
              obtain ⟨⟨hr1, hr2⟩, ⟨hg1, hg2⟩, ⟨hb1, hb2⟩⟩ :=
                midRGB_bounds v1 t ha0 a3
              rw [if_neg a1, if_neg a2, if_pos a3, if_neg b1, if_neg b2,
                if_neg b3]
              unfold rgbSum
              simp only
              nlinarith
            · rw [if_neg a1, if_neg a2, if_neg a3, if_neg b1, if_neg b2,
                if_neg b3]

/-- Helper: the string returned by `getNodeColorWithThresholds` is the
rendering of `getNodeColorRGB` — the darkness rank indeed ranks the
function's output. -/
lemma getNodeColor_eq_render (v : ℚ) (t : VolatilityThresholds) :
    getNodeColorWithThresholds v t = renderRGB (getNodeColorRGB v t) := by
  by_cases a1 : v < t.p40
  · have hc : getNodeColorRGB v t = (255, 255, 255) := by
      unfold getNodeColorRGB; rw [if_pos a1]
    rw [hc]
    unfold getNodeColorWithThresholds renderRGB
    rw [if_pos a1, if_pos rfl]
  · by_cases a2 : v < t.p60
    · have hc : getNodeColorRGB v t = (219, 234, 254) := by
        unfold getNodeColorRGB; rw [if_neg a1, if_pos a2]
      rw [hc]
      unfold getNodeColorWithThresholds renderRGB
      rw [if_neg a1, if_pos a2, if_neg (by decide), if_pos rfl]
    · by_cases a3 : v < t.p80
      · have hc : getNodeColorRGB v t = midRGB v t := by
          unfold getNodeColorRGB; rw [if_neg a1, if_neg a2, if_pos a3]
        obtain ⟨⟨hr1, hr2⟩, _, _⟩ := midRGB_bounds v t (not_lt.1 a2) a3
        have n1 : midRGB v t ≠ (255, 255, 255) := by
          intro hcc; rw [hcc] at hr2; norm_num at hr2
        have n2 : midRGB v t ≠ (219, 234, 254) := by
          intro hcc; rw [hcc] at hr2; norm_num at hr2
        have n3 : midRGB v t ≠ (30, 58, 138) := by
          intro hcc; rw [hcc] at hr1; norm_num at hr1
        rw [hc]
        unfold getNodeColorWithThresholds renderRGB
        rw [if_neg a1, if_neg a2, if_pos a3, if_neg n1, if_neg n2, if_neg n3]
      · have hc : getNodeColorRGB v t = (30, 58, 138) := by
          unfold getNodeColorRGB; rw [if_neg a1, if_neg a2, if_neg a3]
        rw [hc]
        unfold getNodeColorWithThresholds renderRGB
        rw [if_neg a1, if_neg a2, if_neg a3, if_neg (by decide),
          if_neg (by decide), if_pos rfl]

/-- C4 (amended): the color string is the rendering of `getNodeColorRGB`;
for monotone thresholds the color's tier and darkness ranks are
non-decreasing in the value; and for monotone thresholds, positive
exponent, minOpacity ≤ maxOpacity and non-negative pressures, the enhanced
opacity is non-decreasing in the pressure. -/
theorem colorOf_opacityOf_monotone :
    (∀ (v : ℚ) (t : VolatilityThresholds),
      getNodeColorWithThresholds v t = renderRGB (getNodeColorRGB v t)) ∧
    (∀ (t : VolatilityThresholds) (v1 v2 : ℚ), t.Mono → v1 ≤ v2 →
      colorTier v1 t ≤ colorTier v2 t ∧
        colorDarkness v1 t ≤ colorDarkness v2 t) ∧
    (∀ (t : PressureThresholds) (c : OpacityConfig) (p1 p2 : ℝ),
      t.Mono → 0 < c.exponent → c.minOpacity ≤ c.maxOpacity →
      0 ≤ p1 → p1 ≤ p2 →
      getEnhancedConnectionOpacityByPressure p1 t c ≤
        getEnhancedConnectionOpacityByPressure p2 t c) := by
  refine ⟨getNodeColor_eq_render, ?_, ?_⟩
  · intro t v1 v2 _ h
    exact ⟨colorTier_mono v1 v2 t h, colorDarkness_mono v1 v2 t h⟩
  · intro t c p1 p2 ht he hmm hp1 h12
    exact getEnhancedConnectionOpacity_mono _ _ c he.le hmm
      (normalizePressure_mono p1 p2 t ht hp1 h12)

/-- C4 witness: monotonicity evaluated at concrete thresholds, values and
the default opacity configuration. -/
theorem colorOf_opacityOf_monotone_witness :
    (VolatilityThresholds.Mono ⟨1/4, 1/2, 3/4, 1⟩) ∧ ((1/10 : ℚ) ≤ 9/10) ∧
    (colorTier (1/10) ⟨1/4, 1/2, 3/4, 1⟩ ≤
        colorTier (9/10) ⟨1/4, 1/2, 3/4, 1⟩ ∧
      colorDarkness (1/10) ⟨1/4, 1/2, 3/4, 1⟩ ≤
        colorDarkness (9/10) ⟨1/4, 1/2, 3/4, 1⟩) ∧
    (PressureThresholds.Mono ⟨1, 2, 3, 4⟩) ∧
    getEnhancedConnectionOpacityByPressure 1 ⟨1, 2, 3, 4⟩
        DEFAULT_OPACITY_CONFIG ≤
      getEnhancedConnectionOpacityByPressure 2 ⟨1, 2, 3, 4⟩
        DEFAULT_OPACITY_CONFIG := by
  have hmv : VolatilityThresholds.Mono ⟨1/4, 1/2, 3/4, 1⟩ := by
    unfold VolatilityThresholds.Mono; norm_num
  have hmp : PressureThresholds.Mono ⟨1, 2, 3, 4⟩ := by
    unfold PressureThresholds.Mono; norm_num
  exact ⟨hmv, by norm_num,
    colorOf_opacityOf_monotone.2.1 _ (1/10) (9/10) hmv (by norm_num), hmp,
    colorOf_opacityOf_monotone.2.2 _ DEFAULT_OPACITY_CONFIG 1 2 hmp
      (by norm_num [DEFAULT_OPACITY_CONFIG])
      (by norm_num [DEFAULT_OPACITY_CONFIG]) (by norm_num) (by norm_num)⟩

/-- Helper: looking an id up after folding `dedupStep` behaves like looking
it up in the accumulator first and then in the remaining input. -/
lemma dedupStep_foldl_find? (ns : List GraphNode) (acc : List GraphNode)
    (s : String) :
    (List.foldl dedupStep acc ns).find? (fun n => n.id == s) =
      (acc.find? (fun n => n.id == s)).or
        (ns.find? (fun n => n.id == s)) := by
  induction ns generalizing acc with
  | nil => simp
  | cons x rest ih =>
    simp only [List.foldl_cons]
    by_cases hx : acc.any (fun n => n.id == x.id) = true
    · have hstep : dedupStep acc x = acc := by
        unfold dedupStep; rw [if_pos hx]
      rw [hstep, ih acc]
      cases hf : acc.find? (fun n => n.id == s) with
      | some m => rfl
      | none =>
        have hxs : ¬((fun n => n.id == s) x = true) := by
          intro hc
          obtain ⟨m, hm, hmx⟩ := List.any_eq_true.1 hx
          have hnone := List.find?_eq_none.1 hf m hm
          apply hnone
          have h1 : m.id = x.id := beq_iff_eq.1 hmx
          have h2 : x.id = s := beq_iff_eq.1 hc
          show (m.id == s) = true
          rw [h1, h2]
          simp
        rw [List.find?_cons_of_neg rest hxs]
    · have hstep : dedupStep acc x = acc ++ [x] := by
        unfold dedupStep; rw [if_neg hx]
      rw [hstep, ih (acc ++ [x]), List.find?_append, Option.or_assoc]
      congr 1
      by_cases hpx : (fun n => n.id == s) x = true
      · rw [@List.find?_cons_of_pos _ (fun n => n.id == s) x rest hpx,
          @List.find?_cons_of_pos _ (fun n => n.id == s) x [] hpx]
        rfl
      · rw [@List.find?_cons_of_neg _ (fun n => n.id == s) x rest hpx,
          @List.find?_cons_of_neg _ (fun n => n.id == s) x [] hpx]
        simp

/-- Helper: folding `dedupStep` preserves distinctness of the accumulated
ids. -/
lemma dedupStep_foldl_nodup (ns acc : List GraphNode)
    (h : (acc.map GraphNode.id).Nodup) :
    ((List.foldl dedupStep acc ns).map GraphNode.id).Nodup := by
  induction ns generalizing acc with
  | nil => simpa using h
  | cons x rest ih =>
    simp only [List.foldl_cons]
    by_cases hx : acc.any (fun n => n.id == x.id) = true
    · have hstep : dedupStep acc x = acc := by
        unfold dedupStep; rw [if_pos hx]
      rw [hstep]; exact ih acc h
    · have hstep : dedupStep acc x = acc ++ [x] := by
        unfold dedupStep; rw [if_neg hx]
      rw [hstep]
      apply ih
      rw [List.map_append, List.nodup_append]
      refine ⟨h, by simp, ?_⟩
      intro a ha hb
      have hb' : a = x.id := by simpa using hb
      obtain ⟨m, hm, hma⟩ := List.mem_map.1 ha
      apply hx
      refine List.any_eq_true.2 ⟨m, hm, ?_⟩
      show (m.id == x.id) = true
      rw [hma, hb']
      simp

/-- Helper: everything produced by folding `dedupStep` comes from the
accumulator or the input. -/
lemma dedupStep_foldl_subset (ns acc : List GraphNode) :
    ∀ n, n ∈ List.foldl dedupStep acc ns → n ∈ acc ∨ n ∈ ns := by
  induction ns generalizing acc with
  | nil => intro n h; exact Or.inl (by simpa using h)
  | cons x rest ih =>
    intro n h
    simp only [List.foldl_cons] at h
    by_cases hx : acc.any (fun m => m.id == x.id) = true
    · have hstep : dedupStep acc x = acc := by
        unfold dedupStep; rw [if_pos hx]
      rw [hstep] at h
      rcases ih acc n h with h' | h'
      · exact Or.inl h'
      · exact Or.inr (List.mem_cons_of_mem x h')
    · have hstep : dedupStep acc x = acc ++ [x] := by
        unfold dedupStep; rw [if_neg hx]
      rw [hstep] at h
      rcases ih (acc ++ [x]) n h with h' | h'
      · rcases List.mem_append.1 h' with h'' | h''
        · exact Or.inl h''
        · have hnx : n = x := by simpa using h''
          exact Or.inr (hnx ▸ List.mem_cons_self x rest)
      · exact Or.inr (List.mem_cons_of_mem x h')

/-- C6: `dedupNodes` keeps exactly the first occurrence of every id: the
retained ids are pairwise distinct; looking up any id in the deduplicated
list finds exactly the first matching node of the input; every retained
node comes from the input; and every input id is still represented. -/
theorem dedupNodes_spec (ns : List GraphNode) :
    ((dedupNodes ns).map GraphNode.id).Nodup ∧
    (∀ s : String,
      (dedupNodes ns).find? (fun n => n.id == s) =
        ns.find? (fun n => n.id == s)) ∧
    (∀ n, n ∈ dedupNodes ns → n ∈ ns) ∧
    (∀ n, n ∈ ns → ∃ m, m ∈ dedupNodes ns ∧ m.id = n.id) := by
  have hfind : ∀ s : String,
      (dedupNodes ns).find? (fun n => n.id == s) =
        ns.find? (fun n => n.id == s) := by
    intro s
    have h := dedupStep_foldl_find? ns [] s
    simpa [dedupNodes] using h
  refine ⟨dedupStep_foldl_nodup ns [] (by simp), hfind, ?_, ?_⟩
  · intro n h
    rcases dedupStep_foldl_subset ns [] n h with h' | h'
    · simp at h'
    · exact h'
  · intro n hn
    cases hf : ns.find? (fun m => m.id == n.id) with
    | none =>
      exfalso
      have h := List.find?_eq_none.1 hf n hn
      apply h
      simp
    | some m =>
      have hd : (dedupNodes ns).find? (fun k => k.id == n.id) = some m := by
        rw [hfind n.id, hf]
      have hbeq : (m.id == n.id) = true :=
        @List.find?_some _ (fun k => k.id == n.id) m (dedupNodes ns) hd
      exact ⟨m, List.mem_of_find?_eq_some hd, beq_iff_eq.1 hbeq⟩

/-- C6 witness: deduplication evaluated on a concrete list with a repeated
id — the first occurrence survives and ids come out distinct. -/
theorem dedupNodes_spec_witness :
    ((dedupNodes [GraphNode.mk "a" 0 none none, GraphNode.mk "b" 1 none none,
        GraphNode.mk "a" 2 none none]).map GraphNode.id).Nodup ∧
    GraphNode.mk "a" 2 none none ∈
      [GraphNode.mk "a" 0 none none, GraphNode.mk "b" 1 none none,
        GraphNode.mk "a" 2 none none] ∧
    (∃ m, m ∈ dedupNodes [GraphNode.mk "a" 0 none none,
        GraphNode.mk "b" 1 none none, GraphNode.mk "a" 2 none none] ∧
      m.id = (GraphNode.mk "a" 2 none none).id) := by
  have h := dedupNodes_spec [GraphNode.mk "a" 0 none none,
    GraphNode.mk "b" 1 none none, GraphNode.mk "a" 2 none none]
  have hmem : GraphNode.mk "a" 2 none none ∈
      [GraphNode.mk "a" 0 none none, GraphNode.mk "b" 1 none none,
        GraphNode.mk "a" 2 none none] :=
    List.mem_cons_of_mem _ (List.mem_cons_of_mem _ (List.mem_cons_self _ _))
  exact ⟨h.1, hmem, h.2.2.2 _ hmem⟩

/-- C7: an edge whose source or target id resolves to no node renders to
nothing, is dropped at bind time, and its presence anywhere in the
connection list changes neither the rendered lines nor the bound edge set
of the remaining connections. -/
theorem dangling_edge_skipped (nodes : List GraphNode)
    (pre post : List Connection) (c : Connection)
    (h : (∀ n ∈ nodes, n.id ≠ c.source) ∨ (∀ n ∈ nodes, n.id ≠ c.target)) :
    renderConnection nodes c = none ∧
    renderConnections nodes (pre ++ c :: post) =
      renderConnections nodes (pre ++ post) ∧
    bindEdges nodes (pre ++ c :: post) = bindEdges nodes (pre ++ post) ∧
    c ∉ bindEdges nodes (pre ++ c :: post) := by
  have hnone : renderConnection nodes c = none := by
    rcases h with h | h
    · have hf : nodes.find? (fun n => n.id == c.source) = none :=
        List.find?_eq_none.2 (fun n hn hc => h n hn (beq_iff_eq.1 hc))
      simp [renderConnection, hf]
    · have hf : nodes.find? (fun n => n.id == c.target) = none :=
        List.find?_eq_none.2 (fun n hn hc => h n hn (beq_iff_eq.1 hc))
      cases hs : nodes.find? (fun n => n.id == c.source) <;>
        simp [renderConnection, hf, hs]
  have hpred : (nodes.any (fun n => n.id == c.source) &&
      nodes.any (fun n => n.id == c.target)) = false := by
    rcases h with h | h
    · have hs : nodes.any (fun n => n.id == c.source) = false :=
        List.any_eq_false.2 (fun n hn hc => h n hn (beq_iff_eq.1 hc))
      rw [hs, Bool.false_and]
    · have hs : nodes.any (fun n => n.id == c.target) = false :=
        List.any_eq_false.2 (fun n hn hc => h n hn (beq_iff_eq.1 hc))
      rw [hs, Bool.and_false]
  refine ⟨hnone, ?_, ?_, ?_⟩
  · unfold renderConnections
    rw [List.filterMap_append, List.filterMap_append,
      List.filterMap_cons, hnone]
  · unfold bindEdges
    rw [List.filter_append, List.filter_append, List.filter_cons, hpred]
    simp
  · intro hc
    have hmem := (List.mem_filter.1 hc).2
    rw [hpred] at hmem
    exact Bool.false_ne_true hmem

/-- C7 witness: a concrete dangling edge (target id "z" absent from the
node set) is skipped. -/
theorem dangling_edge_skipped_witness :
    (∀ n ∈ [GraphNode.mk "a" 0 (some 0) (some 0)], n.id ≠ "z") ∧
    renderConnection [GraphNode.mk "a" 0 (some 0) (some 0)]
      (Connection.mk "a" "z" 1 0) = none ∧
    bindEdges [GraphNode.mk "a" 0 (some 0) (some 0)]
      [Connection.mk "a" "z" 1 0] = [] := by
  have h : ∀ n ∈ [GraphNode.mk "a" 0 (some 0) (some 0)], n.id ≠ "z" := by
    intro n hn
    have hn' : n = GraphNode.mk "a" 0 (some 0) (some 0) := by simpa using hn
    rw [hn']
    decide
  have happ := dangling_edge_skipped [GraphNode.mk "a" 0 (some 0) (some 0)]
    [] [] (Connection.mk "a" "z" 1 0) (Or.inr h)
  exact ⟨h, happ.1, by simpa using happ.2.2.1⟩

end Spec2Proof
